import Mathlib

/-!
Shallow embedding of the ledger contract dispatch engine
(`libs/ledger/src/chaincode/contract.cpp`), the synergetic contract
factory (`libs/ledger/include/ledger/upow/synergetic_contract_factory.hpp`),
and the synergetic winner-selection rule, together with proofs of the
behavioural claims about them.

The C++ `std::unordered_map` registries are embedded as association lists
with string keys; `find` becomes `lookupKey`, `operator[] = v` becomes
`setKey`, and `++map[k]` becomes `bumpKey`.  Handlers, which in the C++ are
type-erased callables, become Lean functions; a handler that exits by
throwing is embedded as a handler returning `Except.error`.  Methods that
mutate the contract object return the post-state explicitly.
-/

namespace Ledger

/-- Association-list lookup with string keys; embeds `unordered_map::find`. -/
def lookupKey {α : Type} : List (String × α) → String → Option α
  | [], _ => none
  | (k, v) :: rest, name => if k = name then some v else lookupKey rest name

/-- Insert-or-assign with string keys; embeds `map[name] = v`. -/
def setKey {α : Type} : List (String × α) → String → α → List (String × α)
  | [], name, v => [(name, v)]
  | (k, w) :: rest, name, v =>
    if k = name then (k, v) :: rest else (k, w) :: setKey rest name v

/-- Increment-through-subscript; embeds `++counters_[name]` (which
default-constructs the entry to 0 when absent and then increments). -/
def bumpKey : List (String × Nat) → String → List (String × Nat)
  | [], name => [(name, 1)]
  | (k, w) :: rest, name =>
    if k = name then (k, w + 1) :: rest else (k, w) :: bumpKey rest name

/-- The invocation count recorded for a name (0 when no entry exists). -/
def countOf (cs : List (String × Nat)) (name : String) : Nat :=
  (lookupKey cs name).getD 0

/-- Dispatch status codes used by `contract.cpp` (`Status::OK`,
`Status::NOT_FOUND`) plus a generic failure code for handler results. -/
inductive Status where
  | OK
  | FAILED
  | NOT_FOUND
deriving DecidableEq

/-- Modelled from the spec: `Result` is "a status/result pair carrying
success or a domain-specific failure reason"; the class declaration lives
in a header outside the provided sources, so only its status component is
embedded here — every claim observes a `Result` only through its status. -/
structure Result where
  status : Status
deriving DecidableEq

/-- Opaque identity of a transaction's originating owner. -/
abbrev Address := Nat

/-- Block height a transaction is processed under. -/
abbrev BlockIndex := Nat

/-- Opaque query payload (`variant::Variant` in the C++). -/
abbrev Query := Nat

/-- Opaque parsed-JSON document (`variant::Variant` in the C++). -/
abbrev Variant := Nat

/-- Opaque scoped key-value view bound to one contract invocation. -/
abbrev StateAdapter := Nat

/-- A transaction, observed by this core only through its payload bytes
(`tx.data()`); the remaining fields are irrelevant to the claims. -/
structure Transaction where
  data : String

/-- Init handler: invoked with the owner address; may throw (embedded as
`Except.error`). -/
abbrev InitialiseHandler := Address → Except Unit Result

/-- Transaction handler: invoked with the transaction and block index. -/
abbrev TransactionHandler := Transaction → BlockIndex → Except Unit Result

/-- Query handler: receives the query and the response slot by reference;
returns the status together with the written-back response. -/
abbrev QueryHandler := Query → Query → Except Unit (Status × Query)

/-- The `Contract` registry object of `contract.cpp`.  Field shapes follow
the member usage in the source: name-keyed handler maps with parallel
counter maps, an optional init handler, and a nullable state pointer. -/
structure Contract where
  init_handler : Option InitialiseHandler := none
  transaction_handlers : List (String × TransactionHandler) := []
  transaction_counters : List (String × Nat) := []
  query_handlers : List (String × QueryHandler) := []
  query_counters : List (String × Nat) := []
  state_ : Option StateAdapter := none

/-- Modelled from the spec: a freshly constructed contract has empty
registries and no attached state ("`state` is set only between Attach and
Detach"); the default member initialisers live in the header outside the
provided sources. -/
def Contract.empty : Contract := {}

/-- Registration failure: the C++ throws on duplicate registration. -/
inductive RegError where
  | DuplicateHandler
deriving DecidableEq

/-- `Contract::DispatchInitialise`: invoke the init handler when present,
otherwise report `OK`.  The contract object itself is returned unchanged. -/
def Contract.DispatchInitialise (c : Contract) (owner : Address) :
    Except Unit Result × Contract :=
  match c.init_handler with
  | some h => (h owner, c)
  | none => (.ok ⟨Status.OK⟩, c)

/-- `Contract::DispatchQuery`: look the name up in `query_handlers_`; when
absent return `NOT_FOUND` with the response slot untouched; when present
run the handler and then increment the counter — the increment is skipped
when the handler throws, and the thrown error propagates. -/
def Contract.DispatchQuery (c : Contract) (name : String) (query response : Query) :
    Except Unit (Status × Query) × Contract :=
  match lookupKey c.query_handlers name with
  | none => (.ok (Status.NOT_FOUND, response), c)
  | some h =>
    match h query response with
    | .ok (st, resp) =>
      (.ok (st, resp), { c with query_counters := bumpKey c.query_counters name })
    | .error e => (.error e, c)

/-- `Contract::DispatchTransaction`: identical discipline against
`transaction_handlers_` and `transaction_counters_`. -/
def Contract.DispatchTransaction (c : Contract) (name : String) (tx : Transaction)
    (block_index : BlockIndex) : Except Unit Result × Contract :=
  match lookupKey c.transaction_handlers name with
  | none => (.ok ⟨Status.NOT_FOUND⟩, c)
  | some h =>
    match h tx block_index with
    | .ok r =>
      (.ok r, { c with transaction_counters := bumpKey c.transaction_counters name })
    | .error e => (.error e, c)

/-- `Contract::OnInitialise`: fails (C++ throws) when an init handler is
already set, otherwise stores the handler. -/
def Contract.OnInitialise (c : Contract) (handler : InitialiseHandler) :
    Except RegError Unit × Contract :=
  match c.init_handler with
  | some _ => (.error .DuplicateHandler, c)
  | none => (.ok (), { c with init_handler := some handler })

/-- `Contract::OnTransaction`: fails (C++ throws) on a duplicate name,
otherwise stores the handler and resets the name's counter to zero. -/
def Contract.OnTransaction (c : Contract) (name : String)
    (handler : TransactionHandler) : Except RegError Unit × Contract :=
  match lookupKey c.transaction_handlers name with
  | some _ => (.error .DuplicateHandler, c)
  | none =>
    (.ok (), { c with
      transaction_handlers := setKey c.transaction_handlers name handler,
      transaction_counters := setKey c.transaction_counters name 0 })

/-- `Contract::OnQuery`: same discipline for the query registry. -/
def Contract.OnQuery (c : Contract) (name : String) (handler : QueryHandler) :
    Except RegError Unit × Contract :=
  match lookupKey c.query_handlers name with
  | some _ => (.error .DuplicateHandler, c)
  | none =>
    (.ok (), { c with
      query_handlers := setKey c.query_handlers name handler,
      query_counters := setKey c.query_counters name 0 })

/-- `Contract::ParseAsJson`: parse the payload through the external JSON
decoder (passed in as `parse`, its only failure being a parse error, which
the C++ catches as `JSONParseException`); on success the output slot gets
the document root, on failure it is left untouched and `false` is
returned. -/
def Contract.ParseAsJson (parse : String → Except Unit Variant) (tx : Transaction)
    (output : Variant) : Bool × Variant :=
  match parse tx.data with
  | .ok doc => (true, doc)
  | .error _ => (false, output)

/-- `Contract::state`: `detailed_assert(state_ != nullptr)` then dereference;
the assertion firing on an unattached contract is embedded as `none`, an
attached adapter is returned as `some`. -/
def Contract.state (c : Contract) : Option StateAdapter :=
  c.state_

/-- `Contract::Attach`: bind the state adapter reference. -/
def Contract.Attach (c : Contract) (s : StateAdapter) : Contract :=
  { c with state_ := some s }

/-- `Contract::Detach`: clear the state adapter reference. -/
def Contract.Detach (c : Contract) : Contract :=
  { c with state_ := none }

/-! Basic lemmas about the association-list operations. -/

theorem lookupKey_setKey {α : Type} (l : List (String × α)) (n : String) (v : α)
    (m : String) :
    lookupKey (setKey l n v) m = if m = n then some v else lookupKey l m := by
  induction l with
  | nil =>
    by_cases h : m = n
    · subst h; simp [setKey, lookupKey]
    · simp [setKey, lookupKey, h, Ne.symm h]
  | cons kv rest ih =>
    obtain ⟨k, w⟩ := kv
    by_cases hk : k = n
    · subst hk
      by_cases hm : m = k
      · subst hm; simp [setKey, lookupKey]
      · simp [setKey, lookupKey, hm, Ne.symm hm]
    · by_cases hm : m = k
      · subst hm
        simp [setKey, lookupKey, hk, Ne.symm hk]
      · simp [setKey, lookupKey, hk, Ne.symm hm, ih]

theorem lookupKey_bumpKey (l : List (String × Nat)) (n m : String) :
    lookupKey (bumpKey l n) m =
      if m = n then some ((lookupKey l n).getD 0 + 1) else lookupKey l m := by
  induction l with
  | nil =>
    by_cases h : m = n
    · subst h; simp [bumpKey, lookupKey]
    · simp [bumpKey, lookupKey, h, Ne.symm h]
  | cons kv rest ih =>
    obtain ⟨k, w⟩ := kv
    by_cases hk : k = n
    · subst hk
      by_cases hm : m = k
      · subst hm; simp [bumpKey, lookupKey]
      · simp [bumpKey, lookupKey, hm, Ne.symm hm]
    · by_cases hm : m = k
      · subst hm
        simp [bumpKey, lookupKey, hk, Ne.symm hk]
      · simp [bumpKey, lookupKey, hk, Ne.symm hm, ih]

theorem countOf_bumpKey_self (cs : List (String × Nat)) (n : String) :
    countOf (bumpKey cs n) n = countOf cs n + 1 := by
  simp [countOf, lookupKey_bumpKey]

/-! Equation lemmas for the contract operations, one per control path of
the source. -/

theorem DispatchTransaction_not_found (c : Contract) (n : String) (tx : Transaction)
    (bi : BlockIndex) (hl : lookupKey c.transaction_handlers n = none) :
    c.DispatchTransaction n tx bi = (.ok ⟨Status.NOT_FOUND⟩, c) := by
  simp only [Contract.DispatchTransaction, hl]

theorem DispatchTransaction_found_ok (c : Contract) (n : String) (tx : Transaction)
    (bi : BlockIndex) (h : TransactionHandler) (r : Result)
    (hl : lookupKey c.transaction_handlers n = some h) (hr : h tx bi = .ok r) :
    c.DispatchTransaction n tx bi =
      (.ok r, { c with transaction_counters := bumpKey c.transaction_counters n }) := by
  simp only [Contract.DispatchTransaction, hl, hr]

theorem DispatchTransaction_found_error (c : Contract) (n : String) (tx : Transaction)
    (bi : BlockIndex) (h : TransactionHandler) (e : Unit)
    (hl : lookupKey c.transaction_handlers n = some h) (hr : h tx bi = .error e) :
    c.DispatchTransaction n tx bi = (.error e, c) := by
  simp only [Contract.DispatchTransaction, hl, hr]

theorem DispatchQuery_not_found (c : Contract) (n : String) (q resp : Query)
    (hl : lookupKey c.query_handlers n = none) :
    c.DispatchQuery n q resp = (.ok (Status.NOT_FOUND, resp), c) := by
  simp only [Contract.DispatchQuery, hl]

theorem DispatchQuery_found_ok (c : Contract) (n : String) (q resp : Query)
    (h : QueryHandler) (st : Status) (resp' : Query)
    (hl : lookupKey c.query_handlers n = some h) (hr : h q resp = .ok (st, resp')) :
    c.DispatchQuery n q resp =
      (.ok (st, resp'), { c with query_counters := bumpKey c.query_counters n }) := by
  simp only [Contract.DispatchQuery, hl, hr]

theorem DispatchQuery_found_error (c : Contract) (n : String) (q resp : Query)
    (h : QueryHandler) (e : Unit)
    (hl : lookupKey c.query_handlers n = some h) (hr : h q resp = .error e) :
    c.DispatchQuery n q resp = (.error e, c) := by
  simp only [Contract.DispatchQuery, hl, hr]

theorem OnTransaction_duplicate (c : Contract) (n : String) (h₀ h : TransactionHandler)
    (hl : lookupKey c.transaction_handlers n = some h₀) :
    c.OnTransaction n h = (.error .DuplicateHandler, c) := by
  simp only [Contract.OnTransaction, hl]

theorem OnTransaction_fresh (c : Contract) (n : String) (h : TransactionHandler)
    (hl : lookupKey c.transaction_handlers n = none) :
    c.OnTransaction n h = (.ok (), { c with
      transaction_handlers := setKey c.transaction_handlers n h,
      transaction_counters := setKey c.transaction_counters n 0 }) := by
  simp only [Contract.OnTransaction, hl]

theorem OnQuery_duplicate (c : Contract) (n : String) (h₀ h : QueryHandler)
    (hl : lookupKey c.query_handlers n = some h₀) :
    c.OnQuery n h = (.error .DuplicateHandler, c) := by
  simp only [Contract.OnQuery, hl]

theorem OnQuery_fresh (c : Contract) (n : String) (h : QueryHandler)
    (hl : lookupKey c.query_handlers n = none) :
    c.OnQuery n h = (.ok (), { c with
      query_handlers := setKey c.query_handlers n h,
      query_counters := setKey c.query_counters n 0 }) := by
  simp only [Contract.OnQuery, hl]

theorem OnInitialise_duplicate (c : Contract) (h₀ h : InitialiseHandler)
    (hl : c.init_handler = some h₀) :
    c.OnInitialise h = (.error .DuplicateHandler, c) := by
  simp only [Contract.OnInitialise, hl]

theorem OnInitialise_fresh (c : Contract) (h : InitialiseHandler)
    (hl : c.init_handler = none) :
    c.OnInitialise h = (.ok (), { c with init_handler := some h }) := by
  simp only [Contract.OnInitialise, hl]

theorem DispatchInitialise_none (c : Contract) (owner : Address)
    (hl : c.init_handler = none) :
    c.DispatchInitialise owner = (.ok ⟨Status.OK⟩, c) := by
  simp only [Contract.DispatchInitialise, hl]

theorem DispatchInitialise_some (c : Contract) (owner : Address)
    (h : InitialiseHandler) (hl : c.init_handler = some h) :
    c.DispatchInitialise owner = (h owner, c) := by
  simp only [Contract.DispatchInitialise, hl]

/-! The synergetic contract factory.  Only the class declaration is in the
provided sources (`synergetic_contract_factory.hpp`: a factory holding a
single `StorageInterface &` member); `Create`'s body and the synergetic
contract type are modelled from the spec. -/

/-- Content hash identifying a specific contract's compiled code. -/
abbrev Digest := Nat

/-- Modelled from the spec: the problem specification produced by the
`problem` entry point. -/
abbrev Problem := Nat

/-- Modelled from the spec: a candidate solution submitted via `work`. -/
abbrev Solution := Nat

/-- Modelled from the spec: the result of compiling retrieved contract
code, exposing the four synergetic entry points (`problem`, `objective`,
`work`, `clear`); their exact signatures are not given by the provided
sources, so each is an opaque Lean function of the shape the spec
describes. -/
structure CompiledCode where
  problem : StateAdapter → Except Unit Problem
  objective : Problem → Solution → Int
  work : Problem → Nat → Except Unit Solution
  clear : Unit → Unit

/-- Modelled from the spec: a `SynergeticContract` wraps the compiled code
for one digest and exposes its four entry points. -/
structure SynergeticContract where
  digest : Digest
  code : CompiledCode

/-- Modelled from the spec: the factory's failure results — resolution
errors `ContractNotFound` and `CompilationError`. -/
inductive FactoryError where
  | ContractNotFound
  | CompilationError
deriving DecidableEq

/-- Modelled from the spec: `SynergeticContractFactory::Create` resolves
the digest against the storage collaborator, compiles the retrieved code
through the VM collaborator, and wraps it; `ContractNotFound` when the
digest resolves to nothing, `CompilationError` when the bytes do not
compile.  The factory is stateless except for the storage reference (its
only member in the header), so storage and compiler are parameters and no
cache exists. -/
def SynergeticContractFactory.Create (storage : Digest → Option String)
    (compile : String → Option CompiledCode) (digest : Digest) :
    Except FactoryError SynergeticContract :=
  match storage digest with
  | none => .error .ContractNotFound
  | some source =>
    match compile source with
    | none => .error .CompilationError
    | some code => .ok { digest := digest, code := code }

/-! Synergetic winner selection.  No implementation is in the provided
sources; the selection rule is modelled from the spec: the candidate with
the numerically lowest objective score wins (lower-is-better convention),
ties broken by the deterministic total order over submitter Address then
submission sequence number. -/

/-- Modelled from the spec: a scored work submission — submitter Address
(`Address = Nat` in this embedding), submission sequence number, and the
candidate solution. -/
structure Submission where
  addr : Nat
  seq : Nat
  solution : Nat
deriving DecidableEq

/-- The deterministic tie-break key of a submission: submitter Address,
then submission sequence number. -/
def subKey (s : Submission) : Nat × Nat :=
  (s.addr, s.seq)

/-- Modelled from the spec: strict "is a better candidate than" — lower
objective score first, then the Address/sequence tie-break order.  The
score function is the composite of `objective` with the round's problem
snapshot, a pure function of the candidate (spec, concurrency model). -/
def beats (score : Submission → Int) (a b : Submission) : Bool :=
  decide (score a < score b) ||
    (decide (score a = score b) &&
      (decide (a.addr < b.addr) || (decide (a.addr = b.addr) && decide (a.seq < b.seq))))

/-- Keep the current champion unless the challenger is strictly better. -/
def pick (score : Submission → Int) (champion challenger : Submission) : Submission :=
  if beats score challenger champion then challenger else champion

/-- Modelled from the spec: RESOLVED is a single-threaded reduction over
the already-scored candidates; no submissions means no winner. -/
def selectWinner (score : Submission → Int) : List Submission → Option Submission
  | [] => none
  | s :: rest => some (rest.foldl (pick score) s)

/-! Lemmas about the winner order: `beats` is a strict total order on
submissions with distinct tie-break keys, and the fold selects its least
element. -/

theorem beats_iff (score : Submission → Int) (a b : Submission) :
    beats score a b = true ↔
      (score a < score b ∨ (score a = score b ∧
        (a.addr < b.addr ∨ (a.addr = b.addr ∧ a.seq < b.seq)))) := by
  simp [beats]

theorem beats_trans (score : Submission → Int) (a b c : Submission)
    (hab : beats score a b = true) (hbc : beats score b c = true) :
    beats score a c = true := by
  rw [beats_iff] at hab hbc ⊢
  rcases lt_trichotomy (score a) (score b) with hs | hs | hs <;>
    rcases lt_trichotomy (score b) (score c) with ht | ht | ht <;>
    omega

theorem beats_asymm (score : Submission → Int) (a b : Submission)
    (hab : beats score a b = true) (hba : beats score b a = true) : False := by
  rw [beats_iff] at hab hba
  rcases lt_trichotomy (score a) (score b) with hs | hs | hs <;> omega

theorem beats_total (score : Submission → Int) (a b : Submission)
    (h : subKey a ≠ subKey b) :
    beats score a b = true ∨ beats score b a = true := by
  simp only [subKey, ne_eq, Prod.mk.injEq, not_and] at h
  rw [beats_iff, beats_iff]
  rcases lt_trichotomy (score a) (score b) with hs | hs | hs
  · omega
  · by_cases haddr : a.addr = b.addr
    · have hseq := h haddr
      omega
    · omega
  · omega

theorem foldl_pick_mem (score : Submission → Int) :
    ∀ (l : List Submission) (s : Submission), l.foldl (pick score) s ∈ s :: l := by
  intro l
  induction l with
  | nil => intro s; simp
  | cons y ys ih =>
    intro s
    have h := ih (pick score s y)
    rcases List.mem_cons.mp h with h1 | h1
    · rw [List.foldl_cons, h1]
      by_cases hb : beats score y s = true
      · simp [pick, hb]
      · simp [pick, hb]
    · simp only [List.foldl_cons]
      exact List.mem_cons_of_mem _ (List.mem_cons_of_mem _ h1)

theorem foldl_pick_best (score : Submission → Int) :
    ∀ (l : List Submission) (s : Submission),
      ((s :: l).map subKey).Nodup →
      ∀ x ∈ s :: l, subKey x ≠ subKey (l.foldl (pick score) s) →
        beats score (l.foldl (pick score) s) x = true := by
  intro l
  induction l with
  | nil =>
    intro s _ x hx hne
    rcases List.mem_singleton.mp hx with rfl
    exact absurd rfl hne
  | cons y ys ih =>
    intro s hnd x hx hne
    simp only [List.foldl_cons] at hne ⊢
    -- keys of s and y are distinct
    have hsy : subKey s ≠ subKey y := by
      simp only [List.map_cons, List.nodup_cons, List.mem_cons] at hnd
      exact fun hEq => hnd.1 (Or.inl hEq)
    -- the champion after one step beats or is the previous champion s
    have hchamp2 : beats score (pick score s y) s = true ∨ pick score s y = s := by
      by_cases hb : beats score y s = true
      · left; simp [pick, hb]
      · right; simp [pick, hb]
    -- likewise for the challenger y
    have hchamp3 : beats score (pick score s y) y = true ∨ pick score s y = y := by
      by_cases hb : beats score y s = true
      · right; simp [pick, hb]
      · left
        have hpick : pick score s y = s := by simp [pick, hb]
        rw [hpick]
        rcases beats_total score s y hsy with h1 | h1
        · exact h1
        · exact absurd h1 hb
    -- nodup for the recursive call
    have hnd' : ((pick score s y :: ys).map subKey).Nodup := by
      simp only [List.map_cons, List.nodup_cons, List.mem_cons] at hnd
      by_cases hb : beats score y s = true
      · simp only [pick, hb, if_true, List.map_cons, List.nodup_cons]
        exact ⟨hnd.2.1, hnd.2.2⟩
      · simp only [pick, hb, if_false, List.map_cons, List.nodup_cons]
        exact ⟨fun hmem => hnd.1 (Or.inr hmem), hnd.2.2⟩
    have hbest := ih (pick score s y) hnd'
    -- the final result either is the step-one champion or beats it
    have hrc : ys.foldl (pick score) (pick score s y) = pick score s y ∨
        beats score (ys.foldl (pick score) (pick score s y)) (pick score s y) = true := by
      by_cases hkey : subKey (ys.foldl (pick score) (pick score s y)) =
          subKey (pick score s y)
      · left
        rcases List.mem_cons.mp (foldl_pick_mem score ys (pick score s y)) with h1 | h1
        · exact h1
        · exfalso
          simp only [List.map_cons, List.nodup_cons] at hnd'
          exact hnd'.1 (hkey ▸ List.mem_map_of_mem subKey h1)
      · right
        exact hbest _ (List.mem_cons_self _ _) (Ne.symm hkey)
    -- anything the step-one champion beats, the final result beats
    have hcarry : ∀ z : Submission, beats score (pick score s y) z = true →
        beats score (ys.foldl (pick score) (pick score s y)) z = true := by
      intro z hz
      rcases hrc with h1 | h1
      · rw [h1]; exact hz
      · exact beats_trans score _ _ _ h1 hz
    -- now place x
    rcases List.mem_cons.mp hx with h1 | hx'
    · -- x = s
      rcases hchamp2 with hc | hc
      · rw [h1]
        exact hcarry s hc
      · have hxp : x = pick score s y := by rw [h1, hc]
        rw [hxp] at hne ⊢
        exact hbest _ (List.mem_cons_self _ _) hne
    · rcases List.mem_cons.mp hx' with h1 | hx''
      · -- x = y
        rcases hchamp3 with hc | hc
        · rw [h1]
          exact hcarry y hc
        · have hxp : x = pick score s y := by rw [h1, hc]
          rw [hxp] at hne ⊢
          exact hbest _ (List.mem_cons_self _ _) hne
      · -- x from the tail
        exact hbest x (List.mem_cons_of_mem _ hx'') hne

/-- The selected winner belongs to the submissions and beats every other
submission with a different tie-break key. -/
theorem selectWinner_spec (score : Submission → Int) (l : List Submission)
    (hnd : (l.map subKey).Nodup) (w : Submission)
    (hw : selectWinner score l = some w) :
    w ∈ l ∧ ∀ x ∈ l, subKey x ≠ subKey w → beats score w x = true := by
  cases l with
  | nil => simp [selectWinner] at hw
  | cons s rest =>
    simp only [selectWinner, Option.some.injEq] at hw
    subst hw
    exact ⟨foldl_pick_mem score rest s, fun x hx hne =>
      foldl_pick_best score rest s hnd x hx hne⟩

/-- Example submissions of the spec scenario: A scores 10, B and C tie at
7, with B's Address below C's. -/
def exA : Submission := ⟨3, 0, 0⟩

/-- Submission B of the spec scenario. -/
def exB : Submission := ⟨1, 1, 0⟩

/-- Submission C of the spec scenario. -/
def exC : Submission := ⟨2, 2, 0⟩

/-- The scenario's objective scores: 10 for A, 7 for B and C. -/
def exScore (s : Submission) : Int :=
  if s.addr = 3 then 10 else 7

/-! Operation sequences over a contract, for the registry/counter key
invariant. -/

/-- One public operation on a `Contract`. -/
inductive Op where
  | onInitialise (h : InitialiseHandler)
  | onTransaction (name : String) (h : TransactionHandler)
  | onQuery (name : String) (h : QueryHandler)
  | dispatchInitialise (owner : Address)
  | dispatchTransaction (name : String) (tx : Transaction) (bi : BlockIndex)
  | dispatchQuery (name : String) (q : Query) (resp : Query)
  | attach (s : StateAdapter)
  | detach

/-- The contract state after one operation (results discarded). -/
def applyOp (c : Contract) : Op → Contract
  | .onInitialise h => (c.OnInitialise h).2
  | .onTransaction n h => (c.OnTransaction n h).2
  | .onQuery n h => (c.OnQuery n h).2
  | .dispatchInitialise owner => (c.DispatchInitialise owner).2
  | .dispatchTransaction n tx bi => (c.DispatchTransaction n tx bi).2
  | .dispatchQuery n q r => (c.DispatchQuery n q r).2
  | .attach s => c.Attach s
  | .detach => c.Detach

/-- The contract state after a sequence of operations. -/
def applyOps (c : Contract) : List Op → Contract
  | [] => c
  | op :: rest => applyOps (applyOp c op) rest

/-- Per category, the names carrying an invocation counter are exactly the
registered handler names. -/
def countersMatchHandlers (c : Contract) : Prop :=
  (∀ n, (lookupKey c.transaction_handlers n).isSome =
    (lookupKey c.transaction_counters n).isSome) ∧
  (∀ n, (lookupKey c.query_handlers n).isSome =
    (lookupKey c.query_counters n).isSome)

theorem countersMatchHandlers_applyOp (c : Contract) (op : Op)
    (hinv : countersMatchHandlers c) : countersMatchHandlers (applyOp c op) := by
  obtain ⟨hT, hQ⟩ := hinv
  cases op with
  | onInitialise h =>
    cases hl : c.init_handler with
    | some h0 => simp only [applyOp, OnInitialise_duplicate c h0 h hl]; exact ⟨hT, hQ⟩
    | none => simp only [applyOp, OnInitialise_fresh c h hl]; exact ⟨hT, hQ⟩
  | onTransaction n h =>
    cases hl : lookupKey c.transaction_handlers n with
    | some h0 => simp only [applyOp, OnTransaction_duplicate c n h0 h hl]; exact ⟨hT, hQ⟩
    | none =>
      simp only [applyOp, OnTransaction_fresh c n h hl]
      refine ⟨fun m => ?_, hQ⟩
      simp only [lookupKey_setKey]
      by_cases hm : m = n <;> simp [hm, hT m]
  | onQuery n h =>
    cases hl : lookupKey c.query_handlers n with
    | some h0 => simp only [applyOp, OnQuery_duplicate c n h0 h hl]; exact ⟨hT, hQ⟩
    | none =>
      simp only [applyOp, OnQuery_fresh c n h hl]
      refine ⟨hT, fun m => ?_⟩
      simp only [lookupKey_setKey]
      by_cases hm : m = n <;> simp [hm, hQ m]
  | dispatchInitialise owner =>
    cases hl : c.init_handler with
    | some h0 => simp only [applyOp, DispatchInitialise_some c owner h0 hl]; exact ⟨hT, hQ⟩
    | none => simp only [applyOp, DispatchInitialise_none c owner hl]; exact ⟨hT, hQ⟩
  | dispatchTransaction n tx bi =>
    cases hl : lookupKey c.transaction_handlers n with
    | none => simp only [applyOp, DispatchTransaction_not_found c n tx bi hl]; exact ⟨hT, hQ⟩
    | some h =>
      cases hr : h tx bi with
      | error e =>
        simp only [applyOp, DispatchTransaction_found_error c n tx bi h e hl hr]
        exact ⟨hT, hQ⟩
      | ok r =>
        simp only [applyOp, DispatchTransaction_found_ok c n tx bi h r hl hr]
        refine ⟨fun m => ?_, hQ⟩
        simp only [lookupKey_bumpKey]
        by_cases hm : m = n
        · subst hm; simp [hl]
        · simp [hm, hT m]
  | dispatchQuery n q r =>
    cases hl : lookupKey c.query_handlers n with
    | none => simp only [applyOp, DispatchQuery_not_found c n q r hl]; exact ⟨hT, hQ⟩
    | some h =>
      cases hr : h q r with
      | error e =>
        simp only [applyOp, DispatchQuery_found_error c n q r h e hl hr]
        exact ⟨hT, hQ⟩
      | ok sr =>
        obtain ⟨st, resp'⟩ := sr
        simp only [applyOp, DispatchQuery_found_ok c n q r h st resp' hl hr]
        refine ⟨hT, fun m => ?_⟩
        simp only [lookupKey_bumpKey]
        by_cases hm : m = n
        · subst hm; simp [hl]
        · simp [hm, hQ m]
  | attach s => exact ⟨hT, hQ⟩
  | detach => exact ⟨hT, hQ⟩

theorem countersMatchHandlers_applyOps (ops : List Op) :
    ∀ c : Contract, countersMatchHandlers c →
      countersMatchHandlers (applyOps c ops) := by
  induction ops with
  | nil => intro c h; exact h
  | cons op rest ih =>
    intro c h
    exact ih _ (countersMatchHandlers_applyOp c op h)

/-! Concrete handlers and contracts used by the witnesses. -/

/-- A transaction handler that completes with a failure status. -/
def txHandlerOk : TransactionHandler := fun _ _ => .ok ⟨Status.FAILED⟩

/-- A transaction handler that throws. -/
def txHandlerThrow : TransactionHandler := fun _ _ => .error ()

/-- A query handler that succeeds, writing the incremented query back. -/
def qHandlerOk : QueryHandler := fun q _ => .ok (Status.OK, q + 1)

/-- A query handler that throws. -/
def qHandlerThrow : QueryHandler := fun _ _ => .error ()

/-- An init handler that reports success. -/
def initHandlerOk : InitialiseHandler := fun _ => .ok ⟨Status.OK⟩

/-- A contract with one transaction handler, one query handler and an init
handler registered. -/
def cReg : Contract :=
  { init_handler := some initHandlerOk,
    transaction_handlers := [("transfer", txHandlerOk)],
    transaction_counters := [("transfer", 0)],
    query_handlers := [("balance", qHandlerOk)],
    query_counters := [("balance", 0)] }

/-- A contract whose registered handlers throw. -/
def cThrow : Contract :=
  { transaction_handlers := [("boom", txHandlerThrow)],
    transaction_counters := [("boom", 0)],
    query_handlers := [("crash", qHandlerThrow)],
    query_counters := [("crash", 0)] }

/-! The claims. -/

/-- C1: dispatching a registered name invokes the registered handler with
the transaction and block index (resp. the query and response), increments
that name's counter by exactly one per call regardless of the status the
handler's returned result reports, and returns the handler's result;
`DispatchQuery` follows the identical discipline against the query
registry. -/
theorem claim_C1_dispatch_invokes_and_counts (c : Contract) (nt : String)
    (ht : TransactionHandler) (tx : Transaction) (bi : BlockIndex) (r : Result)
    (nq : String) (hq : QueryHandler) (q resp : Query) (st : Status) (resp' : Query)
    (hfindT : lookupKey c.transaction_handlers nt = some ht)
    (hrunT : ht tx bi = .ok r)
    (hfindQ : lookupKey c.query_handlers nq = some hq)
    (hrunQ : hq q resp = .ok (st, resp')) :
    (c.DispatchTransaction nt tx bi).1 = .ok r ∧
    countOf (c.DispatchTransaction nt tx bi).2.transaction_counters nt =
      countOf c.transaction_counters nt + 1 ∧
    (c.DispatchQuery nq q resp).1 = .ok (st, resp') ∧
    countOf (c.DispatchQuery nq q resp).2.query_counters nq =
      countOf c.query_counters nq + 1 := by
  rw [DispatchTransaction_found_ok c nt tx bi ht r hfindT hrunT,
      DispatchQuery_found_ok c nq q resp hq st resp' hfindQ hrunQ]
  exact ⟨rfl, countOf_bumpKey_self _ _, rfl, countOf_bumpKey_self _ _⟩

/-- C1 witness: a registered transaction handler completing with a FAILED
status and a registered query handler, each dispatched once. -/
theorem claim_C1_witness :
    lookupKey cReg.transaction_handlers "transfer" = some txHandlerOk ∧
    txHandlerOk ⟨"p"⟩ 7 = .ok ⟨Status.FAILED⟩ ∧
    lookupKey cReg.query_handlers "balance" = some qHandlerOk ∧
    qHandlerOk 5 0 = .ok (Status.OK, 6) ∧
    ((cReg.DispatchTransaction "transfer" ⟨"p"⟩ 7).1 = .ok ⟨Status.FAILED⟩ ∧
      countOf (cReg.DispatchTransaction "transfer" ⟨"p"⟩ 7).2.transaction_counters
          "transfer" = countOf cReg.transaction_counters "transfer" + 1 ∧
      (cReg.DispatchQuery "balance" 5 0).1 = .ok (Status.OK, 6) ∧
      countOf (cReg.DispatchQuery "balance" 5 0).2.query_counters "balance" =
        countOf cReg.query_counters "balance" + 1) :=
  ⟨rfl, rfl, rfl, rfl,
    claim_C1_dispatch_invokes_and_counts cReg "transfer" txHandlerOk ⟨"p"⟩ 7
      ⟨Status.FAILED⟩ "balance" qHandlerOk 5 0 Status.OK 6 rfl rfl rfl rfl⟩

/-- C2: dispatching an unregistered name returns NOT_FOUND, invokes no
handler, and leaves the whole contract — both handler registries and every
counter in both categories — unchanged. -/
theorem claim_C2_dispatch_not_found (c : Contract) (nt : String) (tx : Transaction)
    (bi : BlockIndex) (nq : String) (q resp : Query)
    (hnt : lookupKey c.transaction_handlers nt = none)
    (hnq : lookupKey c.query_handlers nq = none) :
    c.DispatchTransaction nt tx bi = (.ok ⟨Status.NOT_FOUND⟩, c) ∧
    c.DispatchQuery nq q resp = (.ok (Status.NOT_FOUND, resp), c) := by
  rw [DispatchTransaction_not_found c nt tx bi hnt,
      DispatchQuery_not_found c nq q resp hnq]
  exact ⟨rfl, rfl⟩

/-- C2 witness: dispatching the unregistered names on a contract that has
other handlers registered. -/
theorem claim_C2_witness :
    lookupKey cReg.transaction_handlers "mint" = none ∧
    lookupKey cReg.query_handlers "missing" = none ∧
    (cReg.DispatchTransaction "mint" ⟨"p"⟩ 7 = (.ok ⟨Status.NOT_FOUND⟩, cReg) ∧
      cReg.DispatchQuery "missing" 5 0 = (.ok (Status.NOT_FOUND, 0), cReg)) :=
  ⟨rfl, rfl, claim_C2_dispatch_not_found cReg "mint" ⟨"p"⟩ 7 "missing" 5 0 rfl rfl⟩

/-- C5: registering a transaction or query handler under a name already
registered in that category, or an init handler when one exists, fails
with DuplicateHandler and leaves the contract unchanged; registering a
fresh name succeeds, stores the handler, and resets its counter to zero —
on any contract instance, hence independently across instances. -/
theorem claim_C5_registration (c d : Contract) (n₁ n₂ n₃ n₄ : String)
    (ht₀ ht : TransactionHandler) (hq₀ hq : QueryHandler) (hi₀ hi : InitialiseHandler)
    (hdupT : lookupKey c.transaction_handlers n₁ = some ht₀)
    (hfreshT : lookupKey d.transaction_handlers n₂ = none)
    (hdupQ : lookupKey c.query_handlers n₃ = some hq₀)
    (hfreshQ : lookupKey d.query_handlers n₄ = none)
    (hdupI : c.init_handler = some hi₀)
    (hfreshI : d.init_handler = none) :
    c.OnTransaction n₁ ht = (.error .DuplicateHandler, c) ∧
    c.OnQuery n₃ hq = (.error .DuplicateHandler, c) ∧
    c.OnInitialise hi = (.error .DuplicateHandler, c) ∧
    (d.OnTransaction n₂ ht).1 = .ok () ∧
    lookupKey (d.OnTransaction n₂ ht).2.transaction_handlers n₂ = some ht ∧
    countOf (d.OnTransaction n₂ ht).2.transaction_counters n₂ = 0 ∧
    (d.OnQuery n₄ hq).1 = .ok () ∧
    lookupKey (d.OnQuery n₄ hq).2.query_handlers n₄ = some hq ∧
    countOf (d.OnQuery n₄ hq).2.query_counters n₄ = 0 ∧
    (d.OnInitialise hi).1 = .ok () ∧
    (d.OnInitialise hi).2.init_handler = some hi := by
  rw [OnTransaction_duplicate c n₁ ht₀ ht hdupT, OnQuery_duplicate c n₃ hq₀ hq hdupQ,
      OnInitialise_duplicate c hi₀ hi hdupI, OnTransaction_fresh d n₂ ht hfreshT,
      OnQuery_fresh d n₄ hq hfreshQ, OnInitialise_fresh d hi hfreshI]
  refine ⟨rfl, rfl, rfl, rfl, ?_, ?_, rfl, ?_, ?_, rfl, rfl⟩ <;>
    simp [lookupKey_setKey, countOf]

/-- C5 witness: duplicates rejected on a populated contract, fresh names
accepted on a different, empty contract instance. -/
theorem claim_C5_witness :
    lookupKey cReg.transaction_handlers "transfer" = some txHandlerOk ∧
    lookupKey Contract.empty.transaction_handlers "transfer" = none ∧
    lookupKey cReg.query_handlers "balance" = some qHandlerOk ∧
    lookupKey Contract.empty.query_handlers "balance" = none ∧
    cReg.init_handler = some initHandlerOk ∧
    Contract.empty.init_handler = none ∧
    (cReg.OnTransaction "transfer" txHandlerThrow = (.error .DuplicateHandler, cReg) ∧
      cReg.OnQuery "balance" qHandlerThrow = (.error .DuplicateHandler, cReg) ∧
      cReg.OnInitialise initHandlerOk = (.error .DuplicateHandler, cReg) ∧
      (Contract.empty.OnTransaction "transfer" txHandlerThrow).1 = .ok () ∧
      lookupKey (Contract.empty.OnTransaction "transfer"
        txHandlerThrow).2.transaction_handlers "transfer" = some txHandlerThrow ∧
      countOf (Contract.empty.OnTransaction "transfer"
        txHandlerThrow).2.transaction_counters "transfer" = 0 ∧
      (Contract.empty.OnQuery "balance" qHandlerThrow).1 = .ok () ∧
      lookupKey (Contract.empty.OnQuery "balance"
        qHandlerThrow).2.query_handlers "balance" = some qHandlerThrow ∧
      countOf (Contract.empty.OnQuery "balance"
        qHandlerThrow).2.query_counters "balance" = 0 ∧
      (Contract.empty.OnInitialise initHandlerOk).1 = .ok () ∧
      (Contract.empty.OnInitialise initHandlerOk).2.init_handler
        = some initHandlerOk) :=
  ⟨rfl, rfl, rfl, rfl, rfl, rfl,
    claim_C5_registration cReg Contract.empty "transfer" "transfer" "balance"
      "balance" txHandlerOk txHandlerThrow qHandlerOk qHandlerThrow initHandlerOk
      initHandlerOk rfl rfl rfl rfl rfl rfl⟩

/-- C6: with no init handler registered, DispatchInitialise returns OK and
leaves the contract state untouched; with one registered, it invokes the
handler with the owner and returns its result. -/
theorem claim_C6_dispatch_initialise (c₁ c₂ : Contract) (owner : Address)
    (h : InitialiseHandler) (h₁ : c₁.init_handler = none)
    (h₂ : c₂.init_handler = some h) :
    c₁.DispatchInitialise owner = (.ok ⟨Status.OK⟩, c₁) ∧
    c₂.DispatchInitialise owner = (h owner, c₂) := by
  rw [DispatchInitialise_none c₁ owner h₁, DispatchInitialise_some c₂ owner h h₂]
  exact ⟨rfl, rfl⟩

/-- C6 witness: an empty contract and a contract with an init handler. -/
theorem claim_C6_witness :
    Contract.empty.init_handler = none ∧
    cReg.init_handler = some initHandlerOk ∧
    (Contract.empty.DispatchInitialise 5 = (.ok ⟨Status.OK⟩, Contract.empty) ∧
      cReg.DispatchInitialise 5 = (initHandlerOk 5, cReg)) :=
  ⟨rfl, rfl, claim_C6_dispatch_initialise Contract.empty cReg 5 initHandlerOk rfl rfl⟩

/-- C7: the state accessor returns exactly the adapter passed to the most
recent Attach while attached, and its precondition assertion fires
(embedded as `none`) whenever the contract is unattached — initially and
after any Detach. -/
theorem claim_C7_state_accessor (c : Contract) (s s₁ s₂ : StateAdapter) :
    (c.Attach s).state = some s ∧
    ((c.Attach s₁).Attach s₂).state = some s₂ ∧
    c.Detach.state = none ∧
    ((c.Attach s).Detach).state = none ∧
    Contract.empty.state = none :=
  ⟨rfl, rfl, rfl, rfl, rfl⟩

/-- C8: ParseAsJson returns true and populates the output with the parsed
document exactly when the payload parses; on a malformed payload it
returns false with the output slot unchanged, the parse error being
consumed rather than escalated. -/
theorem claim_C8_parse_as_json (parse : String → Except Unit Variant)
    (tx₁ tx₂ : Transaction) (out doc : Variant) (e : Unit)
    (hok : parse tx₁.data = .ok doc) (herr : parse tx₂.data = .error e) :
    Contract.ParseAsJson parse tx₁ out = (true, doc) ∧
    Contract.ParseAsJson parse tx₂ out = (false, out) := by
  simp only [Contract.ParseAsJson, hok, herr]
  exact ⟨trivial, trivial⟩

/-- A stand-in JSON decoder accepting exactly the payload "ok". -/
def exParse : String → Except Unit Variant :=
  fun s => if s = "ok" then .ok 42 else .error ()

/-- C8 witness: one well-formed and one malformed payload. -/
theorem claim_C8_witness :
    exParse (Transaction.data ⟨"ok"⟩) = .ok 42 ∧
    exParse (Transaction.data ⟨"bad"⟩) = .error () ∧
    (Contract.ParseAsJson exParse ⟨"ok"⟩ 7 = (true, 42) ∧
      Contract.ParseAsJson exParse ⟨"bad"⟩ 7 = (false, 7)) :=
  ⟨rfl, rfl, claim_C8_parse_as_json exParse ⟨"ok"⟩ ⟨"bad"⟩ 7 42 () rfl rfl⟩

/-- C10: when a registered handler exits by throwing instead of returning
a result, the dispatch propagates the error, the contract is unchanged and
in particular that name's counter is not incremented — the counter counts
completed invocations. -/
theorem claim_C10_thrown_not_counted (c : Contract) (nt : String)
    (ht : TransactionHandler) (tx : Transaction) (bi : BlockIndex) (e : Unit)
    (nq : String) (hq : QueryHandler) (q resp : Query) (e₂ : Unit)
    (hfT : lookupKey c.transaction_handlers nt = some ht)
    (hthrowT : ht tx bi = .error e)
    (hfQ : lookupKey c.query_handlers nq = some hq)
    (hthrowQ : hq q resp = .error e₂) :
    c.DispatchTransaction nt tx bi = (.error e, c) ∧
    countOf (c.DispatchTransaction nt tx bi).2.transaction_counters nt =
      countOf c.transaction_counters nt ∧
    c.DispatchQuery nq q resp = (.error e₂, c) ∧
    countOf (c.DispatchQuery nq q resp).2.query_counters nq =
      countOf c.query_counters nq := by
  rw [DispatchTransaction_found_error c nt tx bi ht e hfT hthrowT,
      DispatchQuery_found_error c nq q resp hq e₂ hfQ hthrowQ]
  exact ⟨rfl, rfl, rfl, rfl⟩

/-- C10 witness: registered throwing handlers leave the counters at their
prior values. -/
theorem claim_C10_witness :
    lookupKey cThrow.transaction_handlers "boom" = some txHandlerThrow ∧
    txHandlerThrow ⟨"p"⟩ 7 = .error () ∧
    lookupKey cThrow.query_handlers "crash" = some qHandlerThrow ∧
    qHandlerThrow 5 0 = .error () ∧
    (cThrow.DispatchTransaction "boom" ⟨"p"⟩ 7 = (.error (), cThrow) ∧
      countOf (cThrow.DispatchTransaction "boom" ⟨"p"⟩ 7).2.transaction_counters
          "boom" = countOf cThrow.transaction_counters "boom" ∧
      cThrow.DispatchQuery "crash" 5 0 = (.error (), cThrow) ∧
      countOf (cThrow.DispatchQuery "crash" 5 0).2.query_counters "crash" =
        countOf cThrow.query_counters "crash") :=
  ⟨rfl, rfl, rfl, rfl,
    claim_C10_thrown_not_counted cThrow "boom" txHandlerThrow ⟨"p"⟩ 7 () "crash"
      qHandlerThrow 5 0 () rfl rfl rfl rfl⟩

/-- C3: for submissions with pairwise-distinct (Address, sequence) keys,
winner selection is order-independent — permuted submission lists select
the identical winner — the winner has the numerically lowest objective
score, beating (score first, then Address/sequence order) every other
submission; and the spec scenario A(10), B(7), C(7) with B's Address below
C's selects B in either processing order. -/
theorem claim_C3_winner_deterministic (score : Submission → Int)
    (l₁ l₂ : List Submission) (hperm : l₁.Perm l₂)
    (hnd : (l₁.map subKey).Nodup) :
    selectWinner score l₁ = selectWinner score l₂ ∧
    (∀ w, selectWinner score l₁ = some w →
      w ∈ l₁ ∧ ∀ x ∈ l₁, subKey x ≠ subKey w → beats score w x = true) ∧
    selectWinner exScore [exA, exB, exC] = some exB ∧
    selectWinner exScore [exC, exB, exA] = some exB := by
  have hnd₂ : (l₂.map subKey).Nodup := (hperm.map subKey).nodup hnd
  refine ⟨?_, fun w hw => selectWinner_spec score l₁ hnd w hw, by decide, by decide⟩
  cases l₁ with
  | nil =>
    rw [hperm.symm.eq_nil]
  | cons a as =>
    cases l₂ with
    | nil => exact absurd hperm.eq_nil (by simp)
    | cons b bs =>
      have h₁ := selectWinner_spec score (a :: as) hnd (as.foldl (pick score) a) rfl
      have h₂ := selectWinner_spec score (b :: bs) hnd₂ (bs.foldl (pick score) b) rfl
      have hmem₂ : bs.foldl (pick score) b ∈ a :: as := hperm.symm.subset h₂.1
      have hmem₁ : as.foldl (pick score) a ∈ b :: bs := hperm.subset h₁.1
      by_cases hkey : subKey (as.foldl (pick score) a) =
          subKey (bs.foldl (pick score) b)
      · have heq := List.inj_on_of_nodup_map hnd h₁.1 hmem₂ hkey
        simp only [selectWinner, heq]
      · exfalso
        have hb₁ := h₁.2 _ hmem₂ (fun hEq => hkey hEq.symm)
        have hb₂ := h₂.2 _ hmem₁ hkey
        exact beats_asymm score _ _ hb₁ hb₂

/-- C3 witness: the spec scenario processed in two different orders. -/
theorem claim_C3_witness :
    ([exA, exB, exC].Perm [exC, exB, exA]) ∧
    (([exA, exB, exC].map subKey).Nodup) ∧
    selectWinner exScore [exA, exB, exC] = selectWinner exScore [exC, exB, exA] :=
  ⟨by decide, by decide,
    (claim_C3_winner_deterministic exScore [exA, exB, exC] [exC, exB, exA]
      (by decide) (by decide)).1⟩

/-- C4: factory Create returns ContractNotFound when the digest resolves
to nothing in storage, CompilationError when the retrieved code does not
compile, and otherwise a SynergeticContract exposing the compiled code's
four entry points; the result depends only on the storage contents at the
digest at call time — no cache. -/
theorem claim_C4_factory_create (storage : Digest → Option String)
    (compile : String → Option CompiledCode) (d₁ d₂ d₃ d₄ : Digest)
    (src₂ src₃ : String) (code : CompiledCode)
    (h₁ : storage d₁ = none)
    (h₂ : storage d₂ = some src₂) (h₂c : compile src₂ = none)
    (h₃ : storage d₃ = some src₃) (h₃c : compile src₃ = some code) :
    SynergeticContractFactory.Create storage compile d₁ =
      .error .ContractNotFound ∧
    SynergeticContractFactory.Create storage compile d₂ =
      .error .CompilationError ∧
    SynergeticContractFactory.Create storage compile d₃ =
      .ok { digest := d₃, code := code } ∧
    (∀ g : Digest → Option String, g d₄ = storage d₄ →
      SynergeticContractFactory.Create g compile d₄ =
        SynergeticContractFactory.Create storage compile d₄) := by
  refine ⟨?_, ?_, ?_, fun g hg => ?_⟩
  · simp only [SynergeticContractFactory.Create, h₁]
  · simp only [SynergeticContractFactory.Create, h₂, h₂c]
  · simp only [SynergeticContractFactory.Create, h₃, h₃c]
  · simp only [SynergeticContractFactory.Create, hg]

/-- A compiled synergetic contract with its four entry points. -/
def exCode : CompiledCode :=
  { problem := fun _ => .ok 0,
    objective := fun _ _ => 0,
    work := fun _ _ => .ok 0,
    clear := fun _ => () }

/-- Storage resolving digest 2 to non-compiling bytes and digest 3 to
compiling bytes. -/
def exStorage : Digest → Option String :=
  fun d => if d = 2 then some "bad" else if d = 3 then some "good" else none

/-- A compiler accepting exactly the source "good". -/
def exCompile : String → Option CompiledCode :=
  fun s => if s = "good" then some exCode else none

/-- C4 witness: the three outcomes at concrete digests. -/
theorem claim_C4_witness :
    exStorage 1 = none ∧
    exStorage 2 = some "bad" ∧ exCompile "bad" = none ∧
    exStorage 3 = some "good" ∧ exCompile "good" = some exCode ∧
    (SynergeticContractFactory.Create exStorage exCompile 1 =
      .error .ContractNotFound ∧
    SynergeticContractFactory.Create exStorage exCompile 2 =
      .error .CompilationError ∧
    SynergeticContractFactory.Create exStorage exCompile 3 =
      .ok { digest := 3, code := exCode }) :=
  ⟨rfl, rfl, rfl, rfl, rfl,
    (claim_C4_factory_create exStorage exCompile 1 2 3 0 "bad" "good" exCode
      rfl rfl rfl rfl rfl).1,
    (claim_C4_factory_create exStorage exCompile 1 2 3 0 "bad" "good" exCode
      rfl rfl rfl rfl rfl).2.1,
    (claim_C4_factory_create exStorage exCompile 1 2 3 0 "bad" "good" exCode
      rfl rfl rfl rfl rfl).2.2.1⟩

/-- C9: after every sequence of registration and dispatch operations from
a fresh contract, the names carrying an invocation counter are exactly the
registered handler names, in each category. -/
theorem claim_C9_counters_match_handlers (ops : List Op) :
    countersMatchHandlers (applyOps Contract.empty ops) :=
  countersMatchHandlers_applyOps ops Contract.empty
    ⟨fun _ => rfl, fun _ => rfl⟩

end Ledger
